import Mathlib

/-!
Shallow embedding of the anomaly-detection core of the google_trends
repository (files app.py and app_openai.py; the two files share identical
compute_anomalies, format_pct and fetch_trends_2023_us error handling).

Numeric values are modelled as exact rationals.  The pandas pct_change
column lives in IEEE floats, whose only non-finite behaviour reachable
here is division by a zero previous value: cur/0 gives +inf for cur > 0,
-inf for cur < 0, and 0/0 gives NaN; index 0 is NaN.  We model the column
values with an explicit PctVal type carrying those three special values
and an exact rational otherwise.
-/

namespace GTrends

/-- One row of the fetched DataFrame: a date (kept opaque, the code never
inspects it inside compute_anomalies) and the interest value. -/
structure ObservationPoint (α : Type) where
  date : α
  interest : ℚ
  deriving DecidableEq, Repr

/-- Value of the pandas pct_change column at one row: NaN (row 0, or 0/0),
plus or minus infinity (division of a nonzero value by a zero previous
value), or a finite rational. -/
inductive PctVal where
  | nan : PctVal
  | posInf : PctVal
  | negInf : PctVal
  | val (q : ℚ) : PctVal
  deriving DecidableEq, Repr

/-- The direction column: the Python lambda returns the strings "spiked"
or "dropped", or None. -/
inductive Direction where
  | spiked : Direction
  | dropped : Direction
  | none : Direction
  deriving DecidableEq, Repr

/-- One row of the annotated DataFrame produced by compute_anomalies. -/
structure AnnotatedPoint (α : Type) where
  date : α
  interest : ℚ
  pct_change : PctVal
  is_anomaly : Bool
  direction : Direction
  deriving DecidableEq, Repr

/-- interest.pct_change() at one non-initial row: (cur - prev) / prev in
float arithmetic.  prev = 0 gives the IEEE special values. -/
def divPct (cur prev : ℚ) : PctVal :=
  if prev = 0 then
    if cur > 0 then .posInf else if cur < 0 then .negInf else .nan
  else .val ((cur - prev) / prev)

/-- pct_change for rows after the first, carrying the previous value. -/
def pctChangeAux (prev : ℚ) : List ℚ → List PctVal
  | [] => []
  | c :: rest => divPct c prev :: pctChangeAux c rest

/-- interest.pct_change(): NaN at row 0, then row-by-row relative change. -/
def pctChangeList : List ℚ → List PctVal
  | [] => []
  | v :: rest => .nan :: pctChangeAux v rest

/-- pct.abs() >= change_threshold, IEEE style: NaN compares False, an
infinity exceeds every rational threshold. -/
def PctVal.absGe (p : PctVal) (t : ℚ) : Bool :=
  match p with
  | .nan => false
  | .posInf => true
  | .negInf => true
  | .val q => decide (t ≤ |q|)

/-- The direction lambda: "spiked" if pd.notna(x) and x > 0 else
("dropped" if pd.notna(x) and x < 0 else None).  notna is true on the
infinities and false only on NaN. -/
def dirOf (p : PctVal) : Direction :=
  match p with
  | .nan => .none
  | .posInf => .spiked
  | .negInf => .dropped
  | .val q => if q > 0 then .spiked else if q < 0 then .dropped else .none

/-- compute_anomalies: adds the pct_change, is_anomaly and direction
columns.  The empty-DataFrame branch assigns empty columns, so the empty
input maps to the empty output; astype(float) is the identity here since
values are already numeric. -/
def compute_anomalies {α : Type} (df : List (ObservationPoint α)) (change_threshold : ℚ) :
    List (AnnotatedPoint α) :=
  List.zipWith
    (fun p c =>
      { date := p.date, interest := p.interest, pct_change := c,
        is_anomaly := c.absGe change_threshold, direction := dirOf c })
    df (pctChangeList (df.map (·.interest)))

/-- The default change_threshold of compute_anomalies (0.30). -/
def defaultThreshold : ℚ := 3 / 10

/-- Projection of an annotated row back to the base (date, value) fields. -/
def project {α : Type} (a : AnnotatedPoint α) : ObservationPoint α :=
  { date := a.date, interest := a.interest }

/-- Spec-side reading of the defined-and-strictly-positive condition on a
relative change, pd.notna together with x > 0: true on plus infinity and
on positive finite values. -/
def PctVal.IsPos : PctVal → Prop
  | .posInf => True
  | .val q => 0 < q
  | _ => False

/-- Spec-side reading of the defined-and-strictly-negative condition on a
relative change: true on minus infinity and on negative finite values. -/
def PctVal.IsNeg : PctVal → Prop
  | .negInf => True
  | .val q => q < 0
  | _ => False

/-- The series of the spec's worked example, values
[100, 135, 90, 90, 0, 50] with dates 0..5. -/
def exampleSeries : List (ObservationPoint ℕ) :=
  [⟨0, 100⟩, ⟨1, 135⟩, ⟨2, 90⟩, ⟨3, 90⟩, ⟨4, 0⟩, ⟨5, 50⟩]

/-- Substring occurrence on character lists, modelling the Python in
operator on strings. -/
def subOf (needle : List Char) : List Char → Bool
  | [] => needle.isEmpty
  | c :: rest => needle.isPrefixOf (c :: rest) || subOf needle rest

/-- Python needle in hay, on strings. -/
def strContains (hay needle : String) : Bool :=
  subOf needle.data hay.data

/-- The user-facing condition signalled by the except-branch of
fetch_trends_2023_us: the distinct rate-limit message, or the generic
fetch-failure message carrying the exception text. -/
inductive FetchSignal where
  | rateLimited : FetchSignal
  | fetchFailed (msg : String) : FetchSignal
  deriving DecidableEq, Repr

/-- The rate-limit test on the caught exception's text:
"429" in str(e) or "TooManyRequests" in str(e). -/
def is429Indicator (e : String) : Bool :=
  strContains e "429" || strContains e "TooManyRequests"

/-- The except-branch of fetch_trends_2023_us, given the caught
exception's text: both paths return the empty DataFrame, and the 429
test selects the rate-limit message rather than the generic st.error
message carrying the exception text.  The branch is a total function, so
no exception escapes to the caller. -/
def handle_fetch_error (e : String) : List (ObservationPoint ℕ) × FetchSignal :=
  if is429Indicator e then ([], .rateLimited)
  else ([], .fetchFailed ("Error fetching trends data: " ++ e))

/-- A calendar date as carried by datetime.date. -/
structure PDate where
  year : ℕ
  month : ℕ
  day : ℕ
  deriving DecidableEq, Repr

/-- Decimal digits of a natural number, most significant first, with a
structural fuel argument (fuel n + 1 always suffices). -/
def natDigitsAux : ℕ → ℕ → List Char
  | 0, _ => []
  | fuel + 1, n =>
    if n < 10 then [Nat.digitChar n]
    else natDigitsAux fuel (n / 10) ++ [Nat.digitChar (n % 10)]

/-- Decimal rendering of a natural number. -/
def natStr (n : ℕ) : String :=
  String.mk (natDigitsAux (n + 1) n)

/-- Zero-padding to two digits, as strftime %m and %d render months and
days. -/
def pad2 (n : ℕ) : String :=
  if n < 10 then "0" ++ natStr n else natStr n

/-- strftime "%Y-%m-%d" (the years this app passes are four-digit, so %Y
needs no padding). -/
def isoDate (d : PDate) : String :=
  natStr d.year ++ "-" ++ pad2 d.month ++ "-" ++ pad2 d.day

/-- The guard not token or token.strip() == "YOUR_HF_API_TOKEN_HERE":
Python None and the empty string are falsy, and strip trims whitespace
at both ends. -/
def noCredential (token : Option String) : Bool :=
  match token with
  | Option.none => true
  | some s => s.isEmpty || s.trim == "YOUR_HF_API_TOKEN_HERE"

/-- build_explanation_prompt from app.py. -/
def build_explanation_prompt (keyword : String) (date : PDate) (direction : String) : String :=
  "Explain why search interest in \x27" ++ keyword ++ "\x27 might have " ++ direction ++
    " on " ++ isoDate date ++ " in the US. Give a concise 2-3 sentence hypothesis."

/-- get_hf_explanation, with the transformers pipeline path abstracted
as a function from the prompt to the generated text: the no-credential
guard returns the canned demo string without consulting that function.
The same fallback string appears in get_openai_explanation. -/
def get_hf_explanation (keyword : String) (date : PDate) (direction : String)
    (token : Option String) (backend : String → String) : String :=
  if noCredential token then
    "(Demo) Possible reason it " ++ direction ++
      ": seasonal events, news cycles, or viral content around " ++ isoDate date ++ "."
  else backend (build_explanation_prompt keyword date direction)

/-- Rendering of f-string {y:.1f}: one decimal digit, half-up rounding
of the exact rational (Python rounds the binary double half-to-even;
exact ties are artifacts of the binary representation and are abstracted
here), with the minus sign taken from the sign of the value as float
formatting does. -/
def fmtOneDecimal (y : ℚ) : String :=
  (if y < 0 then "-" else "") ++
    natStr ((round (10 * y)).natAbs / 10) ++ "." ++ natStr ((round (10 * y)).natAbs % 10)

/-- format_pct: the em-dash placeholder on NaN, otherwise
f"{x * 100:.1f}%"; the IEEE infinities print as inf. -/
def format_pct (x : PctVal) : String :=
  match x with
  | .nan => "—"
  | .posInf => "inf%"
  | .negInf => "-inf%"
  | .val q => fmtOneDecimal (q * 100) ++ "%"

end GTrends

namespace GTrends

theorem pctChangeAux_length (prev : ℚ) (l : List ℚ) :
    (pctChangeAux prev l).length = l.length := by
  induction l generalizing prev with
  | nil => rfl
  | cons c rest ih => simp [pctChangeAux, ih]

theorem pctChangeList_length (l : List ℚ) : (pctChangeList l).length = l.length := by
  cases l with
  | nil => rfl
  | cons v rest => simp [pctChangeList, pctChangeAux_length]

theorem compute_anomalies_length {α : Type} (df : List (ObservationPoint α)) (t : ℚ) :
    (compute_anomalies df t).length = df.length := by
  simp [compute_anomalies, List.length_zipWith, pctChangeList_length]

theorem exists_of_mem_zipWith {α β γ : Type} {f : α → β → γ} :
    ∀ {l1 : List α} {l2 : List β} {c : γ}, c ∈ List.zipWith f l1 l2 → ∃ a b, c = f a b := by
  intro l1
  induction l1 with
  | nil => intro l2 c h; simp at h
  | cons x xs ih =>
    intro l2 c h
    cases l2 with
    | nil => simp at h
    | cons y ys =>
      simp only [List.zipWith_cons_cons, List.mem_cons] at h
      rcases h with h | h
      · exact ⟨x, y, h⟩
      · exact ih h

theorem anomaly_row_shape {α : Type} {df : List (ObservationPoint α)} {t : ℚ}
    {a : AnnotatedPoint α} (h : a ∈ compute_anomalies df t) :
    a.is_anomaly = a.pct_change.absGe t ∧ a.direction = dirOf a.pct_change := by
  obtain ⟨p, c, rfl⟩ := exists_of_mem_zipWith h
  exact ⟨rfl, rfl⟩

theorem dirOf_spiked_iff (p : PctVal) : dirOf p = .spiked ↔ p ≠ .nan ∧ p.IsPos := by
  cases p with
  | nan => simp [dirOf, PctVal.IsPos]
  | posInf => simp [dirOf, PctVal.IsPos]
  | negInf => simp [dirOf, PctVal.IsPos]
  | val q =>
    simp only [dirOf, PctVal.IsPos, ne_eq]
    rcases lt_trichotomy q 0 with h | h | h
    · simp [h, asymm h]
    · subst h; simp
    · simp [h]

theorem dirOf_dropped_iff (p : PctVal) : dirOf p = .dropped ↔ p ≠ .nan ∧ p.IsNeg := by
  cases p with
  | nan => simp [dirOf, PctVal.IsNeg]
  | posInf => simp [dirOf, PctVal.IsNeg]
  | negInf => simp [dirOf, PctVal.IsNeg]
  | val q =>
    simp only [dirOf, PctVal.IsNeg, ne_eq]
    rcases lt_trichotomy q 0 with h | h | h
    · simp [h, asymm h]
    · subst h; simp
    · simp [h, asymm h]

theorem dirOf_none_iff (p : PctVal) : dirOf p = .none ↔ p = .nan ∨ p = .val 0 := by
  cases p with
  | nan => simp [dirOf]
  | posInf => simp [dirOf]
  | negInf => simp [dirOf]
  | val q =>
    simp only [dirOf]
    rcases lt_trichotomy q 0 with h | h | h
    · simp [h, asymm h, h.ne]
    · subst h; simp
    · simp [h, asymm h, h.ne']

theorem eval_pair (a b t : ℚ) :
    compute_anomalies ([⟨0, a⟩, ⟨1, b⟩] : List (ObservationPoint ℕ)) t =
      [⟨0, a, .nan, false, .none⟩,
       ⟨1, b, divPct b a, (divPct b a).absGe t, dirOf (divPct b a)⟩] := rfl

theorem subOf_iff (needle hay : List Char) : subOf needle hay = true ↔ needle <:+: hay := by
  induction hay with
  | nil => simp [subOf, List.isEmpty_iff]
  | cons c rest ih => simp [subOf, ih, List.infix_cons_iff]

theorem strContains_right (a : String) {hay y : String} (h : strContains hay y = true) :
    strContains (a ++ hay) y = true := by
  rw [strContains, subOf_iff] at h ⊢
  rw [String.data_append]
  exact h.trans (List.suffix_append _ _).isInfix

theorem strContains_first (y z : String) : strContains (y ++ z) y = true := by
  rw [strContains, subOf_iff, String.data_append]
  exact (List.prefix_append _ _).isInfix

theorem natDigitsAux_digits (fuel : ℕ) :
    ∀ (n : ℕ) (c : Char), c ∈ natDigitsAux fuel n → c.isDigit = true := by
  induction fuel with
  | zero => simp [natDigitsAux]
  | succ fuel ih =>
    intro n c hc
    rw [natDigitsAux] at hc
    split at hc
    · simp at hc
      subst hc
      rename_i h
      interval_cases n <;> decide
    · simp at hc
      rcases hc with hc | hc
      · exact ih _ c hc
      · subst hc
        have h : n % 10 < 10 := Nat.mod_lt _ (by norm_num)
        interval_cases h10 : n % 10 <;> simp_all <;> decide

theorem natStr_digits (n : ℕ) (c : Char) (hc : c ∈ (natStr n).data) : c.isDigit = true :=
  natDigitsAux_digits (n + 1) n c hc

theorem natStr_ne_nil (n : ℕ) : (natStr n).data ≠ [] := by
  rw [natStr]
  show natDigitsAux (n + 1) n ≠ []
  rw [natDigitsAux]
  split
  · simp
  · simp

theorem natStr_lt10 (n : ℕ) (h : n < 10) : (natStr n).data = [Nat.digitChar n] := by
  rw [natStr]
  show natDigitsAux (n + 1) n = _
  rw [natDigitsAux, if_pos h]

theorem digitChar_isDigit (k : ℕ) (h : k < 10) : (Nat.digitChar k).isDigit = true := by
  interval_cases k <;> decide

theorem format_pct_val_data (q : ℚ) :
    (format_pct (.val q)).data =
      (if q * 100 < 0 then ['-'] else []) ++
        ((natStr ((round (10 * (q * 100))).natAbs / 10)).data ++
          ('.' :: ((natStr ((round (10 * (q * 100))).natAbs % 10)).data ++ ['%']))) := by
  show (fmtOneDecimal (q * 100) ++ "%").data = _
  rw [fmtOneDecimal]
  simp only [String.data_append]
  split_ifs with h
  · show ('-' :: []) ++ _ ++ ('.' :: []) ++ _ ++ ('%' :: []) = _
    simp
  · show ([] : List Char) ++ _ ++ ('.' :: []) ++ _ ++ ('%' :: []) = _
    simp

theorem proj_compute {α : Type} (df : List (ObservationPoint α)) (t : ℚ) :
    (compute_anomalies df t).map project = df := by
  unfold compute_anomalies
  generalize hp : pctChangeList (df.map (·.interest)) = ps
  have hlen : ps.length = df.length := by
    rw [← hp, pctChangeList_length, List.length_map]
  clear hp
  induction df generalizing ps with
  | nil => simp
  | cons p rest ih =>
    cases ps with
    | nil => simp at hlen
    | cons c cs =>
      simp only [List.zipWith_cons_cons, List.map_cons]
      rw [ih cs (by simpa using hlen)]
      rfl

end GTrends

/-- C3: for every series and threshold the annotated output of
compute_anomalies has the same length as the input, and the empty series
yields the empty output rather than an error. -/
theorem C3_length_preserved : (∀ (α : Type) (df : List (GTrends.ObservationPoint α)) (t : ℚ),
      (GTrends.compute_anomalies df t).length = df.length) ∧
    (∀ (t : ℚ), GTrends.compute_anomalies ([] : List (GTrends.ObservationPoint ℕ)) t = []) := by
  constructor
  · intro α df t
    exact GTrends.compute_anomalies_length df t
  · intro t
    rfl

/-- C1 (evaluation of the code at the failing input): on values
[100, 135, 90, 90, 0, 50] with threshold 0.30, the code computes
pct_change = +inf at index 5 (50/0 in float), flags it as an anomaly and
labels it spiked — against the claim, and the code's own comment, that a
zero previous value yields an undefined change that is not flagged. -/
theorem C1_zero_prev_divergence :
    (GTrends.compute_anomalies GTrends.exampleSeries GTrends.defaultThreshold).map
        (fun a => (a.pct_change, a.is_anomaly, a.direction)) =
      [(.nan, false, .none), (.val (7/20), true, .spiked), (.val (-1/3), true, .dropped),
       (.val 0, false, .none), (.val (-1), true, .dropped), (.posInf, true, .spiked)] := by
  norm_num [GTrends.compute_anomalies, GTrends.exampleSeries, GTrends.defaultThreshold,
    GTrends.pctChangeList, GTrends.pctChangeAux, GTrends.divPct, GTrends.PctVal.absGe,
    GTrends.dirOf, abs_of_nonneg]

/-- C2: a row is flagged as an anomaly iff its pct_change is defined
(not NaN) and its magnitude is at least the threshold; boundary: a
relative change of exactly 0.30 is flagged at the default threshold and
one of 0.2999 is not. -/
theorem C2_anomaly_iff :
    (∀ (α : Type) (df : List (GTrends.ObservationPoint α)) (t : ℚ)
        (a : GTrends.AnnotatedPoint α), a ∈ GTrends.compute_anomalies df t →
        (a.is_anomaly = true ↔
          a.pct_change ≠ .nan ∧ ∀ q, a.pct_change = .val q → t ≤ |q|)) ∧
    (GTrends.compute_anomalies ([⟨0, 100⟩, ⟨1, 130⟩] : List (GTrends.ObservationPoint ℕ))
        GTrends.defaultThreshold).map (·.is_anomaly) = [false, true] ∧
    (GTrends.compute_anomalies ([⟨0, 10000⟩, ⟨1, 12999⟩] : List (GTrends.ObservationPoint ℕ))
        GTrends.defaultThreshold).map (·.is_anomaly) = [false, false] := by
  refine ⟨?_,
    by rw [GTrends.eval_pair]
       norm_num [GTrends.divPct, GTrends.PctVal.absGe, GTrends.defaultThreshold, abs_of_nonneg],
    by rw [GTrends.eval_pair]
       norm_num [GTrends.divPct, GTrends.PctVal.absGe, GTrends.defaultThreshold, abs_of_nonneg]⟩
  intro α df t a ha
  obtain ⟨hA, _⟩ := GTrends.anomaly_row_shape ha
  rw [hA]
  cases a.pct_change with
  | nan => simp [GTrends.PctVal.absGe]
  | posInf => simp [GTrends.PctVal.absGe]
  | negInf => simp [GTrends.PctVal.absGe]
  | val q => simp [GTrends.PctVal.absGe]

/-- Witness for C2 at the boundary row of the series [100, 130]. -/
theorem C2_anomaly_iff_witness :
    (⟨1, 130, .val (3/10), true, .spiked⟩ : GTrends.AnnotatedPoint ℕ).is_anomaly = true ↔
      (⟨1, 130, .val (3/10), true, .spiked⟩ : GTrends.AnnotatedPoint ℕ).pct_change ≠ .nan ∧
        ∀ q, (⟨1, 130, .val (3/10), true, .spiked⟩ : GTrends.AnnotatedPoint ℕ).pct_change =
          .val q → GTrends.defaultThreshold ≤ |q| :=
  C2_anomaly_iff.1 ℕ [⟨0, 100⟩, ⟨1, 130⟩] GTrends.defaultThreshold _
    (by rw [GTrends.eval_pair]
        norm_num [GTrends.divPct, GTrends.PctVal.absGe, GTrends.dirOf,
          GTrends.defaultThreshold, abs_of_nonneg])

/-- C4: for every non-empty series the first annotated row keeps its date
and value and has NaN pct_change, is_anomaly = false, direction = none. -/
theorem C4_first_row :
    ∀ (α : Type) (p : GTrends.ObservationPoint α)
      (rest : List (GTrends.ObservationPoint α)) (t : ℚ),
      (GTrends.compute_anomalies (p :: rest) t).head? =
        some ⟨p.date, p.interest, .nan, false, .none⟩ := by
  intro α p rest t
  rfl

/-- C5: on every output row, direction is spiked iff the pct_change is
defined and strictly positive, dropped iff defined and strictly negative,
and none iff it is NaN or exactly zero. -/
theorem C5_direction_iff :
    ∀ (α : Type) (df : List (GTrends.ObservationPoint α)) (t : ℚ)
      (a : GTrends.AnnotatedPoint α), a ∈ GTrends.compute_anomalies df t →
      (a.direction = .spiked ↔ a.pct_change ≠ .nan ∧ a.pct_change.IsPos) ∧
      (a.direction = .dropped ↔ a.pct_change ≠ .nan ∧ a.pct_change.IsNeg) ∧
      (a.direction = .none ↔ a.pct_change = .nan ∨ a.pct_change = .val 0) := by
  intro α df t a ha
  obtain ⟨_, hD⟩ := GTrends.anomaly_row_shape ha
  rw [hD]
  exact ⟨GTrends.dirOf_spiked_iff _, GTrends.dirOf_dropped_iff _, GTrends.dirOf_none_iff _⟩

/-- Witness for C5 on the spiked row of the series [1, 2]. -/
theorem C5_direction_iff_witness :
    (⟨1, 2, .val 1, true, .spiked⟩ : GTrends.AnnotatedPoint ℕ).direction = .spiked ↔
      (⟨1, 2, .val 1, true, .spiked⟩ : GTrends.AnnotatedPoint ℕ).pct_change ≠ .nan ∧
        GTrends.PctVal.IsPos
          (⟨1, 2, .val 1, true, .spiked⟩ : GTrends.AnnotatedPoint ℕ).pct_change :=
  (C5_direction_iff ℕ [⟨0, 1⟩, ⟨1, 2⟩] GTrends.defaultThreshold _
    (by rw [GTrends.eval_pair]
        norm_num [GTrends.divPct, GTrends.PctVal.absGe, GTrends.dirOf,
          GTrends.defaultThreshold, abs_of_nonneg])).1

/-- C6: compute_anomalies is deterministic, and re-annotating the
projection of its own output to the base fields reproduces the same
annotation. -/
theorem C6_idempotent :
    ∀ (α : Type) (df : List (GTrends.ObservationPoint α)) (t : ℚ),
      GTrends.compute_anomalies df t = GTrends.compute_anomalies df t ∧
      GTrends.compute_anomalies ((GTrends.compute_anomalies df t).map GTrends.project) t =
        GTrends.compute_anomalies df t := by
  intro α df t
  exact ⟨rfl, by rw [GTrends.proj_compute]⟩

/-- C10: with a strictly positive threshold, every row flagged as an
anomaly has direction spiked or dropped, never none. -/
theorem C10_anomaly_has_direction :
    ∀ (α : Type) (df : List (GTrends.ObservationPoint α)) (t : ℚ), 0 < t →
      ∀ a ∈ GTrends.compute_anomalies df t, a.is_anomaly = true →
        a.direction = .spiked ∨ a.direction = .dropped := by
  intro α df t ht a ha hA
  obtain ⟨hAn, hD⟩ := GTrends.anomaly_row_shape ha
  rw [hD]
  rw [hAn] at hA
  cases hc : a.pct_change with
  | nan => rw [hc] at hA; simp [GTrends.PctVal.absGe] at hA
  | posInf => left; rfl
  | negInf => right; rfl
  | val q =>
    rw [hc] at hA
    simp only [GTrends.PctVal.absGe, decide_eq_true_eq] at hA
    rcases lt_trichotomy q 0 with h | h | h
    · right; simp [GTrends.dirOf, h, asymm h]
    · subst h; simp at hA; exact absurd hA (by linarith)
    · left; simp [GTrends.dirOf, h]

/-- Witness for C10 on the spiked row of the series [100, 135]. -/
theorem C10_anomaly_has_direction_witness :
    (⟨1, 135, .val (7/20), true, .spiked⟩ : GTrends.AnnotatedPoint ℕ).direction = .spiked ∨
      (⟨1, 135, .val (7/20), true, .spiked⟩ : GTrends.AnnotatedPoint ℕ).direction = .dropped :=
  C10_anomaly_has_direction ℕ [⟨0, 100⟩, ⟨1, 135⟩] GTrends.defaultThreshold
    (by norm_num [GTrends.defaultThreshold]) _
    (by rw [GTrends.eval_pair]
        norm_num [GTrends.divPct, GTrends.PctVal.absGe, GTrends.dirOf,
          GTrends.defaultThreshold, abs_of_nonneg])
    rfl

/-- C7: the fetcher's except-branch lets no exception escape: for every
exception text it returns the empty series, signals the rate-limited
condition exactly when the text carries an HTTP-429 indicator ("429" or
"TooManyRequests" as a substring), and otherwise signals the generic
fetch-failed condition carrying the underlying error text. -/
theorem C7_fetch_error_recovery :
    ∀ (e : String),
      (GTrends.handle_fetch_error e).1 = [] ∧
      ((GTrends.handle_fetch_error e).2 = .rateLimited ↔ GTrends.is429Indicator e = true) ∧
      (GTrends.is429Indicator e = false →
        (GTrends.handle_fetch_error e).2 =
          .fetchFailed ("Error fetching trends data: " ++ e)) := by
  intro e
  unfold GTrends.handle_fetch_error
  by_cases h : GTrends.is429Indicator e = true
  · simp [h]
  · have h2 : GTrends.is429Indicator e = false := by simpa using h
    simp [h2]

/-- Witness for C7 on the non-429 exception text "boom". -/
theorem C7_fetch_error_recovery_witness :
    (GTrends.handle_fetch_error "boom").2 =
      .fetchFailed ("Error fetching trends data: " ++ "boom") :=
  (C7_fetch_error_recovery "boom").2.2 (by decide)

/-- C8 counterexample: with no token configured, the explanation for
keyword "cats" on 2023-05-07 direction "spiked" is the canned demo
string, which does not contain the keyword. -/
theorem C8_no_keyword_counterexample :
    GTrends.strContains
      (GTrends.get_hf_explanation "cats" ⟨2023, 5, 7⟩ "spiked" Option.none (fun p => p))
      "cats" = false := by
  decide

/-- C8 (amended): with no credential configured the explanation step
returns, independently of the text-generation backend, the canned string
containing the ISO date and the direction word; contrary to the original
claim the keyword does not appear in it. -/
theorem C8_fallback_amended :
    ∀ (keyword : String) (date : GTrends.PDate) (direction : String)
      (token : Option String) (b1 b2 : String → String),
      GTrends.noCredential token = true →
      GTrends.get_hf_explanation keyword date direction token b1 =
          GTrends.get_hf_explanation keyword date direction token b2 ∧
        GTrends.strContains (GTrends.get_hf_explanation keyword date direction token b1)
          (GTrends.isoDate date) = true ∧
        GTrends.strContains (GTrends.get_hf_explanation keyword date direction token b1)
          direction = true := by
  intro keyword date direction token b1 b2 h
  unfold GTrends.get_hf_explanation
  rw [if_pos h, if_pos h]
  refine ⟨rfl, ?_, ?_⟩
  · rw [String.append_assoc, String.append_assoc, String.append_assoc]
    refine GTrends.strContains_right _ (GTrends.strContains_right _
      (GTrends.strContains_right _ ?_))
    exact GTrends.strContains_first _ _
  · rw [String.append_assoc, String.append_assoc, String.append_assoc]
    exact GTrends.strContains_right _ (GTrends.strContains_first _ _)

/-- Witness for C8 at keyword "cats", date 2023-05-07, direction
"spiked", no token, two distinct backends. -/
theorem C8_fallback_amended_witness :
    GTrends.get_hf_explanation "cats" ⟨2023, 5, 7⟩ "spiked" Option.none (fun p => p) =
        GTrends.get_hf_explanation "cats" ⟨2023, 5, 7⟩ "spiked" Option.none (fun _ => "other") ∧
      GTrends.strContains
        (GTrends.get_hf_explanation "cats" ⟨2023, 5, 7⟩ "spiked" Option.none (fun p => p))
        (GTrends.isoDate ⟨2023, 5, 7⟩) = true ∧
      GTrends.strContains
        (GTrends.get_hf_explanation "cats" ⟨2023, 5, 7⟩ "spiked" Option.none (fun p => p))
        "spiked" = true :=
  C8_fallback_amended "cats" ⟨2023, 5, 7⟩ "spiked" Option.none (fun p => p) (fun _ => "other") rfl

/-- C9 counterexample: at the positive relative change 0.35 the
formatter returns "35.0%", which carries no plus marking, against the
claim that a positive change is marked as positive. -/
theorem C9_no_plus_counterexample :
    GTrends.format_pct (.val (35 / 100)) = "35.0%" ∧ '+' ∉ "35.0%".data := by
  constructor
  · show GTrends.fmtOneDecimal ((35 : ℚ) / 100 * 100) ++ "%" = "35.0%"
    have h : ((35 : ℚ) / 100 * 100) = 35 := by norm_num
    rw [h]
    have h2 : round ((10 : ℚ) * 35) = 350 := by norm_num [round_eq]
    rw [GTrends.fmtOneDecimal, h2]
    norm_num
    decide
  · decide

/-- C9 (amended): the formatter returns the em-dash placeholder on an
undefined (NaN) change; on a finite change it renders exactly one
decimal digit followed by the percent sign, with a leading minus sign
exactly when the change is negative, and a positive change carries no
plus marking (the original claim that a positive change is explicitly
marked as positive does not hold). -/
theorem C9_format_amended :
    GTrends.format_pct .nan = "—" ∧
    (∀ q : ℚ, '+' ∉ (GTrends.format_pct (.val q)).data) ∧
    (∀ q : ℚ, ((GTrends.format_pct (.val q)).data.head? = some '-' ↔ q < 0)) ∧
    (∀ q : ℚ, ∃ c, c.isDigit = true ∧
      ['.', c, '%'] <:+ (GTrends.format_pct (.val q)).data) := by
  refine ⟨rfl, ?_, ?_, ?_⟩
  · intro q
    rw [GTrends.format_pct_val_data]
    intro hm
    simp only [List.mem_append, List.mem_cons, List.mem_singleton] at hm
    rcases hm with hm | hm | hm | hm | hm
    · split_ifs at hm <;> simp at hm
    · exact absurd (GTrends.natStr_digits _ _ hm) (by decide)
    · exact absurd hm (by decide)
    · exact absurd (GTrends.natStr_digits _ _ hm) (by decide)
    · exact absurd hm (by decide)
  · intro q
    have hq : (q * 100 < 0) ↔ q < 0 := by
      constructor <;> intro h <;> nlinarith
    rw [GTrends.format_pct_val_data, ← hq]
    split_ifs with h
    · simp [h]
    · simp only [List.nil_append, h, iff_false]
      obtain ⟨c, cs, hc⟩ := List.exists_cons_of_ne_nil
        (GTrends.natStr_ne_nil ((round (10 * (q * 100))).natAbs / 10))
      rw [hc]
      simp only [List.cons_append, List.head?_cons, Option.some.injEq]
      intro hcontra
      have hd := GTrends.natStr_digits _ c (by rw [hc]; simp)
      rw [hcontra] at hd
      exact absurd hd (by decide)
  · intro q
    have hb : (round (10 * (q * 100))).natAbs % 10 < 10 := Nat.mod_lt _ (by norm_num)
    refine ⟨Nat.digitChar ((round (10 * (q * 100))).natAbs % 10),
      GTrends.digitChar_isDigit _ hb, ?_⟩
    rw [GTrends.format_pct_val_data, GTrends.natStr_lt10 _ hb]
    refine ⟨(if q * 100 < 0 then ['-'] else []) ++
      (GTrends.natStr ((round (10 * (q * 100))).natAbs / 10)).data, ?_⟩
    simp
